import Mathlib

/-!
Shallow embedding of `src/assets/core/gui/layer/LayerUI.ts` (class `LayerUI`).

A `LayerUI` owns two JavaScript `Map`s — `ui_nodes : uuid → ViewParams` and
`ui_cache : prefabPath → ViewParams` — plus its Cocos scene children.  The
`ViewParams` records are mutable objects shared by reference between the two
maps and the `DelegateComponent` attached to each instantiated node, so the
embedding keeps an explicit heap `recs : address → ViewParams` and the maps
store addresses.  JavaScript `Map`s preserve insertion order and `set` on an
existing key updates in place: they are modelled as ordered association lists.

Child nodes are identified by the order of allocation (`nextNode`); their
`DelegateComponent` back-pointer lives in `nodeComp : nodeId → address`.
Asynchronous asset loads (`oops.res.load`, the external asset provider of
spec §6) are modelled as a `pending` list; a separate step `completeLoad`
fires one outstanding callback with an error flag.  The `params`/`callbacks`
payloads are opaque to the layer and not modelled; log calls are modelled as
counters.  A JavaScript runtime `TypeError` (dereferencing an absent
`viewParams.node`) is modelled by the `Res.fault` outcome, carrying the state
at the moment the exception is thrown.
-/

namespace LayerUI

/-- `uuid.replace(/\//g, "_")` from `getUuid`: rewrite every `/` to `_`. -/
def slashToUnderscore (s : String) : String :=
  ⟨s.data.map (fun c => if c = '/' then '_' else c)⟩

/-- The `ViewParams` record of `Defines.ts` as used by `LayerUI`:
`node` is absent until the asynchronous load completes; `valid` is the
claimed/attached flag.  The opaque `params`/`callbacks` payloads are omitted. -/
structure ViewParams where
  uuid : String
  prefabPath : String
  node : Option Nat := none
  valid : Bool := false
deriving DecidableEq, Inhabited

/-- Ordered association-list lookup, modelling `Map.get`. -/
def alGet {κ α : Type} [BEq κ] (m : List (κ × α)) (k : κ) : Option α :=
  match m with
  | [] => none
  | (j, v) :: rest => if j == k then some v else alGet rest k

/-- Ordered association-list update, modelling `Map.set`: an existing key
keeps its position, a new key is appended. -/
def alSet {κ α : Type} [BEq κ] (m : List (κ × α)) (k : κ) (v : α) : List (κ × α) :=
  match m with
  | [] => [(k, v)]
  | (j, w) :: rest => if j == k then (j, v) :: rest else (j, w) :: alSet rest k v

/-- Association-list removal, modelling `Map.delete` (keys are unique). -/
def alDel {κ α : Type} [BEq κ] (m : List (κ × α)) (k : κ) : List (κ × α) :=
  match m with
  | [] => []
  | (j, w) :: rest => if j == k then rest else (j, w) :: alDel rest k

/-- The mutable state of one `LayerUI` instance plus its record heap and the
set of outstanding asset-provider callbacks. -/
structure LayerState where
  name : String
  recs : List (Nat × ViewParams) := []
  nextRec : Nat := 0
  ui_nodes : List (String × Nat) := []
  ui_cache : List (String × Nat) := []
  nodeComp : List (Nat × Nat) := []
  children : List Nat := []
  destroyed : List Nat := []
  nextNode : Nat := 0
  pending : List (Nat × String) := []
  warnings : Nat := 0
  errors : Nat := 0
deriving DecidableEq, Inhabited

/-- A fresh layer, as built by the constructor (the `Widget` layout component
it installs has no bearing on the bookkeeping state). -/
def LayerState.init (name : String) : LayerState :=
  { name := name }

/-- Dereference a `ViewParams` heap address (addresses are allocated by `add`
and never reused, so lookup cannot actually miss). -/
def getRec (s : LayerState) (a : Nat) : ViewParams :=
  (alGet s.recs a).getD default

/-- Write back a mutated `ViewParams` object. -/
def setRec (s : LayerState) (a : Nat) (vp : ViewParams) : LayerState :=
  { s with recs := alSet s.recs a vp }

/-- Outcome of an operation: normal return, or a thrown JavaScript
`TypeError` (dereferencing an absent `viewParams.node`), with the state at
the throw point. -/
inductive Res where
  | ok (s : LayerState)
  | fault (s : LayerState)
deriving DecidableEq

/-- Whether the operation threw. -/
def Res.isFault : Res → Bool
  | .ok _ => false
  | .fault _ => true

/-- The state carried by the outcome. -/
def Res.state : Res → LayerState
  | .ok s => s
  | .fault s => s

/-- `getUuid`: `` `${this.name}_${prefabPath}` `` with every `/` rewritten
to `_`. -/
def getUuid (s : LayerState) (prefabPath : String) : String :=
  slashToUnderscore (s.name ++ "_" ++ prefabPath)

/-- Modelled from the spec: `DelegateComponent.remove(isDestroy)`
(`DelegateComponent.ts` is not under `src/`).  Spec §4.1/§6: the binding is
told to detach-only (`isDestroy = false`) or detach-and-destroy
(`isDestroy = true`); either way the node leaves the layer's children. -/
def DelegateComponent.remove (s : LayerState) (nodeId : Nat) (isDestroy : Bool) : LayerState :=
  let s1 := { s with children := s.children.erase nodeId }
  if isDestroy then { s1 with destroyed := s1.destroyed ++ [nodeId] } else s1

/-- Modelled from the spec: `DelegateComponent.add` (`onInsert`), which runs
the view's enter hooks and caller-supplied callbacks; it changes no layer
bookkeeping state (spec §6). -/
def DelegateComponent.add (s : LayerState) (_addr : Nat) : LayerState :=
  s

/-- `createNode(viewParams)`: set `valid = true`, fetch the
`DelegateComponent` from `viewParams.node` (a `TypeError` if the node is
absent), notify it of insertion, and parent the node under the layer. -/
def createNode (s : LayerState) (addr : Nat) : Res :=
  let s1 := setRec s addr { getRec s addr with valid := true }
  match (getRec s1 addr).node with
  | none => .fault s1
  | some nodeId =>
    match alGet s1.nodeComp nodeId with
    | none => .fault s1
    | some compAddr =>
      let s2 := DelegateComponent.add s1 compAddr
      .ok { s2 with
              children := if s2.children.contains nodeId then s2.children
                          else s2.children ++ [nodeId] }

/-- `load(viewParams, bundle?)`: re-fetch the record from `ui_nodes` by uuid;
if that record already has a node, re-attach it (fast path), otherwise issue
an asynchronous request to the asset provider (modelled by appending to
`pending`; the bundle name does not affect the layer's bookkeeping). -/
def load (s : LayerState) (addr : Nat) : Res :=
  let viewParams := getRec s addr
  match alGet s.ui_nodes viewParams.uuid with
  | some vpAddr =>
    if (getRec s vpAddr).node.isSome then
      createNode s vpAddr
    else
      .ok { s with pending := s.pending ++ [(addr, viewParams.prefabPath)] }
  | none =>
    .ok { s with pending := s.pending ++ [(addr, viewParams.prefabPath)] }

/-- `add(config, params?, callbacks?)`: compute the uuid; reject (warn and
return `""`) if a record exists with `valid = true`; create the record if
absent; overwrite payloads, set `valid = true`, trigger `load`, and return
the uuid. -/
def add (s : LayerState) (prefabPath : String) : String × Res :=
  let uuid := getUuid s prefabPath
  match alGet s.ui_nodes uuid with
  | some a0 =>
    if (getRec s a0).valid then
      ("", .ok { s with warnings := s.warnings + 1 })
    else
      let s1 := setRec s a0 { getRec s a0 with valid := true }
      (uuid, load s1 a0)
  | none =>
    let a := s.nextRec
    let vp : ViewParams := { uuid := uuid, prefabPath := prefabPath }
    let s1 := { s with
                  recs := alSet s.recs a vp,
                  nextRec := a + 1,
                  ui_nodes := alSet s.ui_nodes uuid a }
    let s2 := setRec s1 a { vp with valid := true }
    (uuid, load s2 a)

/-- Remove one outstanding callback entry (each `oops.res.load` callback
fires exactly once). -/
def consumePending (l : List (Nat × String)) (addr : Nat) (path : String) :
    List (Nat × String) :=
  match l with
  | [] => []
  | e :: rest =>
    if e.1 = addr ∧ e.2 = path then rest else e :: consumePending rest addr path

/-- The completion callback passed to `oops.res.load` in `load`, fired for
one outstanding request.  On error the code logs via `error(err)` and falls
through: instantiating the absent resource and calling `addComponent` on the
result throws, modelled as a fault with no further bookkeeping change.  On
success it instantiates the prefab (a fresh node id), stores it in
`viewParams.node`, attaches a `DelegateComponent` pointing back at the
record, and calls `createNode` — with no check that the record still exists
in `ui_nodes`. -/
def completeLoad (s : LayerState) (addr : Nat) (path : String) (err : Bool) : Res :=
  if (addr, path) ∈ s.pending then
    let s1 := { s with pending := consumePending s.pending addr path }
    if err then
      .fault { s1 with errors := s1.errors + 1 }
    else
      let nodeId := s1.nextNode
      let s2 := { s1 with nextNode := nodeId + 1 }
      let s3 := setRec s2 addr { getRec s2 addr with node := some nodeId }
      let s4 := { s3 with nodeComp := alSet s3.nodeComp nodeId addr }
      createNode s4 addr
  else
    .ok s

/-- `__nodes()`: walk the layer's children in order and keep each child whose
`DelegateComponent` exists, has a record with `valid = true`, and is itself
still alive (`isValid`).  Returns `(nodeId, record address)` pairs. -/
def nodes (s : LayerState) : List (Nat × Nat) :=
  s.children.filterMap fun nodeId =>
    match alGet s.nodeComp nodeId with
    | none => none
    | some addr =>
      if (getRec s addr).valid && !(s.destroyed.contains nodeId) then
        some (nodeId, addr)
      else
        none

/-- `get(prefabPath)`: the nodes of all currently valid attached children
whose record path matches, in child order. -/
def get (s : LayerState) (prefabPath : String) : List Nat :=
  (nodes s).filterMap fun p =>
    if (getRec s p.2).prefabPath == prefabPath then some p.1 else none

/-- `has(prefabPathOrUUID)`: whether some currently valid attached child
matches by uuid or by path. -/
def has (s : LayerState) (prefabPathOrUUID : String) : Bool :=
  (nodes s).any fun p =>
    (getRec s p.2).uuid == prefabPathOrUUID ||
      (getRec s p.2).prefabPath == prefabPathOrUUID

/-- `removeCache(prefabPath)`: if a cache entry exists, dereference its node
(fault if absent), tell the binding to detach-and-destroy, and delete the
record from both `ui_nodes` and `ui_cache`. -/
def removeCache (s : LayerState) (prefabPath : String) : Res :=
  match alGet s.ui_cache prefabPath with
  | none => .ok s
  | some addr =>
    let vp := getRec s addr
    match vp.node with
    | none => .fault s
    | some nodeId =>
      let s1 := DelegateComponent.remove s nodeId true
      .ok { s1 with
              ui_nodes := alDel s1.ui_nodes vp.uuid,
              ui_cache := alDel s1.ui_cache prefabPath }

/-- The `for` loop of `remove` over the snapshot returned by `__nodes()`:
for each matching child, delete the record (`isDestroy`) or cache it by path
(`!isDestroy`), notify the binding, and set `valid = false`. -/
def removeLoop (s : LayerState) (cs : List (Nat × Nat)) (prefabPath : String)
    (isDestroy : Bool) : LayerState :=
  match cs with
  | [] => s
  | (nodeId, addr) :: rest =>
    let viewParams := getRec s addr
    if viewParams.prefabPath == prefabPath then
      let s1 := if isDestroy then { s with ui_nodes := alDel s.ui_nodes viewParams.uuid }
                else { s with ui_cache := alSet s.ui_cache viewParams.prefabPath addr }
      let s2 := DelegateComponent.remove s1 nodeId isDestroy
      let s3 := setRec s2 addr { getRec s2 addr with valid := false }
      removeLoop s3 rest prefabPath isDestroy
    else
      removeLoop s rest prefabPath isDestroy

/-- `remove(prefabPath, isDestroy)`: when destroying, first evict the cache
entry for the path unconditionally; then scan the attached valid children
and process every match. -/
def remove (s : LayerState) (prefabPath : String) (isDestroy : Bool) : Res :=
  match (if isDestroy then removeCache s prefabPath else .ok s) with
  | .fault s1 => .fault s1
  | .ok s1 => .ok (removeLoop s1 (nodes s1) prefabPath isDestroy)

/-- `removeByUuid(uuid, isDestroy)`: look the record up in `ui_nodes`; when
destroying, delete the map entry first; then dereference `viewParams.node`
(a `TypeError` if the load has not completed) and notify the binding. -/
def removeByUuid (s : LayerState) (uuid : String) (isDestroy : Bool) : Res :=
  match alGet s.ui_nodes uuid with
  | none => .ok s
  | some addr =>
    let viewParams := getRec s addr
    let s1 := if isDestroy then { s with ui_nodes := alDel s.ui_nodes viewParams.uuid }
              else s
    match viewParams.node with
    | none => .fault s1
    | some nodeId => .ok (DelegateComponent.remove s1 nodeId isDestroy)

/-- The `ui_nodes.forEach` body of `clear`: `removeByUuid` then
`value.valid = false` for each entry; a thrown `TypeError` propagates and
aborts the iteration (the assignment of that entry is not reached). -/
def clearLoop (s : LayerState) (entries : List (String × Nat)) (isDestroy : Bool) : Res :=
  match entries with
  | [] => .ok s
  | (_, addr) :: rest =>
    let value := getRec s addr
    match removeByUuid s value.uuid isDestroy with
    | .fault s1 => .fault s1
    | .ok s1 =>
      let s2 := setRec s1 addr { getRec s1 addr with valid := false }
      clearLoop s2 rest isDestroy

/-- The `ui_cache.forEach` body of `clear(true)`: evict every cache entry. -/
def clearCacheLoop (s : LayerState) (entries : List (String × Nat)) : Res :=
  match entries with
  | [] => .ok s
  | (prefabPath, _) :: rest =>
    match removeCache s prefabPath with
    | .fault s1 => .fault s1
    | .ok s1 => clearCacheLoop s1 rest

/-- `clear(isDestroy)`: iterate `ui_nodes` (insertion order) with
`removeByUuid`, then `ui_nodes.clear()`; if destroying, also evict every
cache entry via `removeCache`. -/
def clear (s : LayerState) (isDestroy : Bool) : Res :=
  match clearLoop s s.ui_nodes isDestroy with
  | .fault s1 => .fault s1
  | .ok s1 =>
    let s2 := { s1 with ui_nodes := [] }
    if isDestroy then clearCacheLoop s2 s2.ui_cache else .ok s2

/-- `size()`: the number of direct children of the layer node. -/
def size (s : LayerState) : Nat :=
  s.children.length

/-- State after `add(P)` on a fresh layer, before the asynchronous load
resolves. -/
def afterAdd (name p : String) : LayerState :=
  ((add (LayerState.init name) p).2).state

/-- State after `add(P)` and successful load completion: the view is
attached. -/
def afterAttach (name p : String) : LayerState :=
  (completeLoad (afterAdd name p) 0 p false).state

/-- State after `add(P)`, attach, then `remove(P, destroy := false)`. -/
def afterCachedRemove (name p : String) : LayerState :=
  (remove (afterAttach name p) p false).state

/-- State after `add(P)`, attach, `remove(P, false)`, then `clear(false)`:
the record survives only in `ui_cache` (spec §8 clear semantics). -/
def afterClearFalse (name p : String) : LayerState :=
  (clear (afterCachedRemove name p) false).state

/-- After `add(P)` on a fresh layer: one record at address 0, claimed
(`valid = true`) but with no node yet, and one outstanding load. -/
theorem afterAdd_eq (name p : String) :
    afterAdd name p =
      { name := name,
        recs := [(0, { uuid := slashToUnderscore (name ++ "_" ++ p),
                       prefabPath := p, node := none, valid := true })],
        nextRec := 1,
        ui_nodes := [(slashToUnderscore (name ++ "_" ++ p), 0)],
        pending := [(0, p)] } := by
  simp [afterAdd, add, load, getUuid, alGet, alSet, getRec, setRec,
        LayerState.init, Res.state]

/-- After the load completes successfully: node 0 is instantiated, bound and
attached, and the record is valid. -/
theorem afterAttach_eq (name p : String) :
    afterAttach name p =
      { name := name,
        recs := [(0, { uuid := slashToUnderscore (name ++ "_" ++ p),
                       prefabPath := p, node := some 0, valid := true })],
        nextRec := 1,
        ui_nodes := [(slashToUnderscore (name ++ "_" ++ p), 0)],
        nodeComp := [(0, 0)],
        children := [0],
        nextNode := 1 } := by
  rw [afterAttach, afterAdd_eq]
  simp [completeLoad, consumePending, createNode, DelegateComponent.add,
        getRec, setRec, alGet, alSet, Res.state, List.contains]

/-- After `remove(P, destroy := false)`: the node is detached and the record
invalidated, but it stays in `ui_nodes` and is additionally cached by path. -/
theorem afterCachedRemove_eq (name p : String) :
    afterCachedRemove name p =
      { name := name,
        recs := [(0, { uuid := slashToUnderscore (name ++ "_" ++ p),
                       prefabPath := p, node := some 0, valid := false })],
        nextRec := 1,
        ui_nodes := [(slashToUnderscore (name ++ "_" ++ p), 0)],
        ui_cache := [(p, 0)],
        nodeComp := [(0, 0)],
        children := [],
        nextNode := 1 } := by
  rw [afterCachedRemove, afterAttach_eq]
  simp [remove, removeLoop, nodes, DelegateComponent.remove, getRec, setRec,
        alGet, alSet, alDel, Res.state, List.contains, List.erase]

/-- After a further `clear(false)`: `ui_nodes` is emptied while the cache
entry survives, so the record is now reachable only through `ui_cache`. -/
theorem afterClearFalse_eq (name p : String) :
    afterClearFalse name p =
      { name := name,
        recs := [(0, { uuid := slashToUnderscore (name ++ "_" ++ p),
                       prefabPath := p, node := some 0, valid := false })],
        nextRec := 1,
        ui_nodes := [],
        ui_cache := [(p, 0)],
        nodeComp := [(0, 0)],
        children := [],
        nextNode := 1 } := by
  rw [afterClearFalse, afterCachedRemove_eq]
  simp [clear, clearLoop, removeByUuid, DelegateComponent.remove, getRec,
        setRec, alGet, alSet, alDel, Res.state, List.erase]

/-- C1, counterexample: in layer `"Dialog"`, after `add("ui/Confirm")`,
attach, and `remove("ui/Confirm", false)`, `has("ui/Confirm")` returns
`false`, not `true` as the claim states (the cached record has
`valid = false` and its node is detached, so the `__nodes()` scan behind
`has` skips it just as it does for `get`). -/
theorem C1_counterexample :
    has (afterCachedRemove "Dialog" "ui/Confirm") "ui/Confirm" = false := by
  decide

/-- C1 (amended): after `add(P)` completes its load and attach, calling
`remove(P, destroy := false)` leaves a cached record, but both `has(P)` and
`get(P)` ignore it: `has(P)` returns `false` and `get(P)` returns the empty
sequence, while the record is still present in the cache mapping — there is
no asymmetry between `has` and `get`. -/
theorem C1_cached_remove_uncounted (name p : String) :
    has (afterCachedRemove name p) p = false ∧
    get (afterCachedRemove name p) p = [] ∧
    alGet (afterCachedRemove name p).ui_cache p = some 0 := by
  rw [afterCachedRemove_eq]
  refine ⟨?_, ?_, ?_⟩ <;> simp [has, get, nodes, getRec, alGet]

/-- C2, counterexample: in layer `"Dialog"`, after `add("ui/Confirm")`,
attach, and `remove("ui/Confirm", false)`, the record at address 0 is
simultaneously in the active mapping (under its uuid) and in the cache
mapping (under its path), violating the claimed exclusivity. -/
theorem C2_counterexample :
    alGet (afterCachedRemove "Dialog" "ui/Confirm").ui_nodes
        "Dialog_ui_Confirm" = some 0 ∧
    alGet (afterCachedRemove "Dialog" "ui/Confirm").ui_cache
        "ui/Confirm" = some 0 := by
  decide

/-- C2 (amended): a `ViewParams` record is not confined to one mapping:
non-destructive removal inserts the record into the cache mapping without
deleting it from the active mapping, so for every layer name and path the
record is afterwards present in both `ui_nodes` and `ui_cache` at once. -/
theorem C2_active_cache_overlap (name p : String) :
    alGet (afterCachedRemove name p).ui_nodes
        (slashToUnderscore (name ++ "_" ++ p)) = some 0 ∧
    alGet (afterCachedRemove name p).ui_cache p = some 0 := by
  rw [afterCachedRemove_eq]
  constructor <;> simp [alGet]

/-- C3: for every path, a second `add(P)` issued before the first load
resolves returns the empty string, logs one duplicate-load warning, and
leaves exactly the single original record for P in `ui_nodes`. -/
theorem C3_duplicate_add_rejected (name p : String) :
    (add (afterAdd name p) p).1 = "" ∧
    (add (afterAdd name p) p).2.state.warnings = 1 ∧
    (add (afterAdd name p) p).2.state.ui_nodes =
      [(slashToUnderscore (name ++ "_" ++ p), 0)] := by
  rw [afterAdd_eq]
  refine ⟨?_, ?_, ?_⟩ <;>
    simp [add, getUuid, alGet, getRec, Res.state]

/-- C4: after `add(P)`, attach, and `remove(P, destroy := false)`, a second
`add(P)` returns the identifier again, issues no new request to the asset
provider (`pending` stays empty and no new node is instantiated,
`nextNode = 1`), re-attaches the previously created visual (node 0 is a
child again), and restores `valid = true` on the record. -/
theorem C4_cache_roundtrip_fast_path (name p : String) :
    (add (afterCachedRemove name p) p).1 =
      slashToUnderscore (name ++ "_" ++ p) ∧
    (add (afterCachedRemove name p) p).2.isFault = false ∧
    (add (afterCachedRemove name p) p).2.state.pending = [] ∧
    (add (afterCachedRemove name p) p).2.state.children = [0] ∧
    (getRec (add (afterCachedRemove name p) p).2.state 0).valid = true ∧
    (getRec (add (afterCachedRemove name p) p).2.state 0).node = some 0 ∧
    (add (afterCachedRemove name p) p).2.state.nextNode = 1 := by
  rw [afterCachedRemove_eq]
  refine ⟨?_, ?_, ?_, ?_, ?_, ?_, ?_⟩ <;>
    simp [add, load, createNode, DelegateComponent.add, getUuid, alGet,
          alSet, getRec, setRec, Res.state, Res.isFault, List.contains]

/-- C5: after `add(P)`, attach, and `remove(P, destroy := true)`, the path
is present in neither `ui_nodes` nor `ui_cache`, and afterwards `has(P)`
returns `false` and `get(P)` returns the empty sequence. -/
theorem C5_destroy_finality (name p : String) :
    (remove (afterAttach name p) p true).isFault = false ∧
    (remove (afterAttach name p) p true).state.ui_nodes = [] ∧
    (remove (afterAttach name p) p true).state.ui_cache = [] ∧
    has ((remove (afterAttach name p) p true).state) p = false ∧
    get ((remove (afterAttach name p) p true).state) p = [] := by
  rw [afterAttach_eq]
  refine ⟨?_, ?_, ?_, ?_, ?_⟩ <;>
    simp [remove, removeCache, removeLoop, nodes, has, get,
          DelegateComponent.remove, getRec, setRec, alGet, alSet, alDel,
          Res.state, Res.isFault, List.contains, List.erase]

/-- C6: the completion handler performs no existence check.  Failing input:
layer `"L"`, `add("p")` (load outstanding), then `clear(true)` — which
deletes the record from `ui_nodes` before throwing on the absent node — and
then the load completes successfully.  The handler attaches the newly
created visual under the layer (`children = [0]`, it is not destroyed, and
`has("p")` even becomes `true`) although the originating record is no longer
in the active mapping, instead of discarding the visual as claimed. -/
theorem C6_late_completion_attaches :
    (clear (afterAdd "L" "p") true).state.ui_nodes = [] ∧
    (completeLoad ((clear (afterAdd "L" "p") true).state) 0 "p"
        false).isFault = false ∧
    (completeLoad ((clear (afterAdd "L" "p") true).state) 0 "p"
        false).state.children = [0] ∧
    (completeLoad ((clear (afterAdd "L" "p") true).state) 0 "p"
        false).state.ui_nodes = [] ∧
    0 ∉ (completeLoad ((clear (afterAdd "L" "p") true).state) 0 "p"
        false).state.destroyed ∧
    has ((completeLoad ((clear (afterAdd "L" "p") true).state) 0 "p"
        false).state) "p" = true := by
  decide

/-- C7: when the asynchronous load completes with an error, the error is
reported to the logger (the subsequent fall-through into instantiating the
absent resource throws, modelled as the fault outcome) and no record cleanup
occurs: the record is still in `ui_nodes`, still pending (`node = none`) and
still claimed (`valid = true`). -/
theorem C7_load_error_no_cleanup (name p : String) :
    (completeLoad (afterAdd name p) 0 p true).isFault = true ∧
    (completeLoad (afterAdd name p) 0 p true).state.errors = 1 ∧
    (completeLoad (afterAdd name p) 0 p true).state.ui_nodes =
      [(slashToUnderscore (name ++ "_" ++ p), 0)] ∧
    (getRec (completeLoad (afterAdd name p) 0 p true).state 0).node = none ∧
    (getRec (completeLoad (afterAdd name p) 0 p true).state 0).valid
      = true := by
  rw [afterAdd_eq]
  refine ⟨?_, ?_, ?_, ?_, ?_⟩ <;>
    simp [completeLoad, consumePending, getRec, alGet, Res.state,
          Res.isFault]

/-- C8: for every layer name and path, `add` on a fresh layer returns the
layer name joined to the path by `"_"` with every `/` rewritten to `_`, and
it does so immediately: right after `add` returns, the load is still
outstanding and the record has no visual yet.  In particular a layer named
`"Dialog"` with prefab path `"ui/Confirm"` yields `"Dialog_ui_Confirm"`. -/
theorem C8_identifier_computation (name p : String) :
    (add (LayerState.init name) p).1 =
      slashToUnderscore (name ++ "_" ++ p) ∧
    (afterAdd name p).pending = [(0, p)] ∧
    (getRec (afterAdd name p) 0).node = none ∧
    (add (LayerState.init "Dialog") "ui/Confirm").1
      = "Dialog_ui_Confirm" := by
  refine ⟨?_, ?_, ?_, ?_⟩
  · simp [add, getUuid, alGet, LayerState.init]
  · rw [afterAdd_eq]
  · rw [afterAdd_eq]; simp [getRec, alGet]
  · decide

/-- C9: when the path survives only in the cache (after `add`, attach,
`remove(P, false)`, `clear(false)` there is a cache entry but no attached
child and no active record), `remove(P, destroy := true)` still evicts the
cache entry before the child scan and fully releases it: the cache and
active mappings end empty and the cached visual (node 0) is destroyed. -/
theorem C9_destroy_evicts_cache_only_path (name p : String) :
    (afterClearFalse name p).ui_cache = [(p, 0)] ∧
    (afterClearFalse name p).children = [] ∧
    (afterClearFalse name p).ui_nodes = [] ∧
    (remove (afterClearFalse name p) p true).isFault = false ∧
    (remove (afterClearFalse name p) p true).state.ui_cache = [] ∧
    (remove (afterClearFalse name p) p true).state.ui_nodes = [] ∧
    (remove (afterClearFalse name p) p true).state.destroyed = [0] := by
  rw [afterClearFalse_eq]
  refine ⟨?_, ?_, ?_, ?_, ?_, ?_, ?_⟩ <;>
    simp [remove, removeCache, removeLoop, nodes, DelegateComponent.remove,
          getRec, setRec, alGet, alSet, alDel, Res.state, Res.isFault,
          List.contains, List.erase]

/-- C10: while a record's load is still outstanding (`node = none`), both
`removeByUuid` on its uuid and `clear` — with either destroy flag —
dereference the absent visual handle and throw: clearing a layer with an
in-flight load is not a safe no-op on the pending record. -/
theorem C10_pending_record_removal_faults (name p : String) (d : Bool) :
    (removeByUuid (afterAdd name p)
        (slashToUnderscore (name ++ "_" ++ p)) d).isFault = true ∧
    (clear (afterAdd name p) d).isFault = true := by
  rw [afterAdd_eq]
  cases d <;> constructor <;>
    simp [removeByUuid, clear, clearLoop, getRec, setRec, alGet, alDel,
          Res.isFault]

end LayerUI
